import Mathlib

/-!
Verification of the `news_influencer` TikTok hidden-API acquisition pipeline
(`src/API.py`, `src/DOM.py`).

The development shallowly embeds the data model and the operations that the
specification's claims are about:

* the merge/dedup persistence (`_deduplicate`, API.py:183-189 and
  DOM.py:362-368), with CSV rows modelled as key/payload records and the
  `astype(str)` key coercion made explicit;
* the result cache (`PyktokAPI._cache_set` / `_cache_get`, API.py:698-708);
* the cursor-pagination loops (`get_user_videos`, `get_hashtag_videos`,
  `get_video_comments`, `get_sound_videos`, `get_playlist_videos`,
  API.py:748-1057), driven by a finite trace of responses: the k-th
  `fetch_api` call of a run receives the k-th element of the trace, `none`
  standing for a failed (None-returning) fetch;
* the retry loop of `SeleniumDriverAPI.fetch_api` (API.py:466-668), with the
  per-attempt outcome (empty body / malformed body / endpoint error /
  parsed dict) supplied by an environment function;
* the CSV save helpers (`save_user_videos_csv`, `save_hashtag_videos_csv`,
  `save_video_comments_csv`, API.py:1063-1133), with the filesystem state
  passed explicitly (`Option (List Row)` = contents of the target path);
* the filename derivation helpers (`_sanitize_filename_part`,
  `_dom_style_base_name_from_url`, `_default_csv_filename`, API.py:192-270),
  including the `(?<=/video/)([0-9]+)` video-id extraction.
-/

namespace Pyktok

/-! ## Rows, key coercion and `_deduplicate` (API.py:183-189, DOM.py:362-368) -/

/-- A pandas cell value of the dedup-key column: either an integer (as parsed
from JSON / re-read from CSV) or a string.  `astype(str)` maps both to their
string form. -/
inductive CellVal where
  | int (n : Int)
  | str (s : String)
deriving DecidableEq

/-- `str(v)` for a key cell, as performed by `new_df[key].astype(str)`. -/
def CellVal.toStr : CellVal → String
  | .int n => toString n
  | .str s => s

/-- One exported CSV row: the dedup-key column plus the remaining columns
(opaque payload).  `_deduplicate` compares rows only on the key column. -/
structure Row where
  key : CellVal
  payload : String
deriving DecidableEq

/-- The `new_df[key] = new_df[key].astype(str)` coercion, applied rowwise. -/
def coerceKey (r : Row) : Row :=
  { r with key := .str r.key.toStr }

/-- Core of `DataFrame.drop_duplicates(subset=[key])` (default `keep="first"`):
keep the first row carrying each key, scanning left to right; `seen` is the
set of keys already emitted. -/
def dropDupAux (seen : List CellVal) : List Row → List Row
  | [] => []
  | r :: rest =>
    if r.key ∈ seen then dropDupAux seen rest
    else r :: dropDupAux (r.key :: seen) rest

/-- `drop_duplicates(subset=[key])` with the default `keep="first"`. -/
def dropDuplicatesByKey (rows : List Row) : List Row :=
  dropDupAux [] rows

/-- The `pd.concat([old, new_df])` step of `_deduplicate` (API.py:185-187):
existing rows first, then the new rows; a missing path (`existing = none`)
contributes nothing. -/
def existingPlusNew (existing : Option (List Row)) (newRows : List Row) :
    List Row :=
  match existing with
  | some old => old ++ newRows
  | none => newRows

/-- `_deduplicate(existing_path, new_df, key)` (API.py:183-189): if the path
exists, read it and concatenate existing-then-new; coerce the key column to
string; drop duplicate keys keeping the first occurrence.  `existing = none`
models a missing path.  The caller writes the result back to the same path,
fully replacing it (`to_csv`). -/
def deduplicate (existing : Option (List Row)) (newRows : List Row) : List Row :=
  dropDuplicatesByKey ((existingPlusNew existing newRows).map coerceKey)

/-! ## Filename helpers (API.py:44-45, 192-270) -/

/-- Python whitespace as used by `str.strip` and the regex class `\s`. -/
def isPySpace (c : Char) : Bool :=
  c = ' ' || c = '\t' || c = '\n' || c = '\r' || c = '\x0b' || c = '\x0c'

/-- `str.strip()`. -/
def pyStrip (s : String) : String :=
  String.mk (((s.data.dropWhile isPySpace).reverse.dropWhile isPySpace).reverse)

/-- `str.lower()`, characterwise. -/
def pyLower (s : String) : String :=
  String.mk (s.data.map Char.toLower)

/-- `str.lstrip(ch)` for a single strip character. -/
def lstripChar (ch : Char) (s : String) : String :=
  String.mk (s.data.dropWhile (fun c => c = ch))

/-- Auxiliary for the regex substitution `re.sub(r"\s+", "_", s)`: each maximal
run of whitespace becomes a single underscore.  `prevSpace` records whether the
previous character belonged to a run already replaced. -/
def collapseWsAux (prevSpace : Bool) : List Char → List Char
  | [] => []
  | c :: rest =>
    if isPySpace c then
      if prevSpace then collapseWsAux true rest
      else '_' :: collapseWsAux true rest
    else c :: collapseWsAux false rest

/-- Characters kept by `re.sub(r"[^A-Za-z0-9_@\-\.]+", "", s)`. -/
def isAllowedFnameChar (c : Char) : Bool :=
  c.isAlpha || c.isDigit || c = '_' || c = '@' || c = '-' || c = '.'

/-- `_sanitize_filename_part` (API.py:192-199): strip; empty -> "unknown";
replace `/` by `_`; collapse whitespace runs to `_`; delete characters outside
`[A-Za-z0-9_@\-.]`; empty -> "unknown". -/
def sanitize_filename_part (s : String) : String :=
  let t := pyStrip s
  if t = "" then "unknown"
  else
    let t := t.data.map (fun c => if c = '/' then '_' else c)
    let t := collapseWsAux false t
    let t := t.filter isAllowedFnameChar
    if t = [] then "unknown" else String.mk t

/-- Leading run of ASCII digits, for the `[0-9]+` part of `VIDEO_ID_REGEX`. -/
def digitRun : List Char → List Char
  | [] => []
  | c :: rest => if c.isDigit then c :: digitRun rest else []

/-- Left-to-right scan implementing `re.search(r"(?<=/video/)([0-9]+)", s)`:
the first position preceded by `/video/` and holding a digit starts the match,
which extends over the maximal digit run. -/
def videoIdScan : List Char → Option (List Char)
  | '/' :: rest =>
    match rest with
    | 'v' :: 'i' :: 'd' :: 'e' :: 'o' :: '/' :: c :: tail =>
      if c.isDigit then some (c :: digitRun tail) else videoIdScan rest
    | _ => videoIdScan rest
  | _ :: rest => videoIdScan rest
  | [] => none

/-- `re.search(VIDEO_ID_REGEX, s)` returning the matched digit group. -/
def extractVideoId (s : String) : Option String :=
  (videoIdScan s.data).map String.mk

/-- `m.group(1) if m else str(video_id)` — the normalisation applied by
`get_video_comments` (API.py:879-880) and `save_video_comments_csv`
(API.py:1111-1112). -/
def normalizeVideoId (s : String) : String :=
  match extractVideoId s with
  | some v => v
  | none => s

/-- `TIKTOK_BASE` (API.py:35). -/
def tiktok_base : String := "https://www.tiktok.com"

/-- Scan for the first occurrence of `.com/` and return the characters after
it, for the lookbehind of `URL_REGEX = r"(?<=\.com/)(.+?)(?=\?|$)"`. -/
def afterComSlash : List Char → Option (List Char)
  | '.' :: rest =>
    match rest with
    | 'c' :: 'o' :: 'm' :: '/' :: tail => some tail
    | _ => afterComSlash rest
  | _ :: rest => afterComSlash rest
  | [] => none

/-- `_dom_style_base_name_from_url` (API.py:202-205): the first `URL_REGEX`
match (at least one character after the first `.com/`, lazily extended to the
next `?` or the end of the string) with `/` replaced by `_`; if there is no
match, the whole url with `/` replaced by `_`; empty -> "output". -/
def dom_style_base_name_from_url (url : String) : String :=
  let base :=
    match afterComSlash url.data with
    | some (c :: tail) =>
      String.mk ((c :: tail.takeWhile (fun x => x ≠ '?')).map
        (fun c => if c = '/' then '_' else c))
    | _ => String.mk (url.data.map (fun c => if c = '/' then '_' else c))
  if base = "" then "output" else base

/-- Substring test used for `"tiktok.com" in identifier` (API.py:235). -/
def containsStr (needle : List Char) : List Char → Bool
  | [] => needle.isEmpty
  | l@(_ :: rest) => needle.isPrefixOf l || containsStr needle rest

/-- `_default_csv_filename(endpoint, identifier)` (API.py:208-270). -/
def default_csv_filename (endpoint identifier : String) : String :=
  let ep := pyLower (pyStrip endpoint)
  let ident := pyStrip identifier
  if ep = "user_videos" then
    dom_style_base_name_from_url
      (tiktok_base ++ "/@" ++ pyStrip (lstripChar '@' ident)) ++ ".csv"
  else if ep = "user_info" then
    dom_style_base_name_from_url
      (tiktok_base ++ "/@" ++ pyStrip (lstripChar '@' ident)) ++ "_user_info.csv"
  else if ep = "hashtag_videos" then
    dom_style_base_name_from_url
      (tiktok_base ++ "/tag/" ++ pyStrip (lstripChar '#' ident)) ++ ".csv"
  else if ep = "video_comments" then
    match extractVideoId ident with
    | some vid => "comments_" ++ vid ++ ".csv"
    | none => "comments_" ++ sanitize_filename_part ident ++ ".csv"
  else if ep = "related_videos" then
    if containsStr "tiktok.com".data ident.data then
      dom_style_base_name_from_url ident ++ ".csv"
    else
      match extractVideoId ident with
      | some vid => "related_" ++ vid ++ ".csv"
      | none => "related_" ++ sanitize_filename_part ident ++ ".csv"
  else if ep = "trending" then
    dom_style_base_name_from_url (tiktok_base ++ "/foryou") ++ ".csv"
  else if ep = "search_videos" then
    dom_style_base_name_from_url
      (tiktok_base ++ "/search/" ++ sanitize_filename_part ident) ++ ".csv"
  else if ep = "search_users" then
    dom_style_base_name_from_url
      (tiktok_base ++ "/search/user/" ++ sanitize_filename_part ident) ++ ".csv"
  else if ep = "sound_videos" then
    dom_style_base_name_from_url
      (tiktok_base ++ "/music/" ++ sanitize_filename_part ident) ++ ".csv"
  else if ep = "sound_info" then
    dom_style_base_name_from_url
      (tiktok_base ++ "/music/" ++ sanitize_filename_part ident) ++ "_info.csv"
  else if ep = "playlist_videos" then
    dom_style_base_name_from_url
      (tiktok_base ++ "/playlist/" ++ sanitize_filename_part ident) ++ ".csv"
  else if ep = "playlist_info" then
    dom_style_base_name_from_url
      (tiktok_base ++ "/playlist/" ++ sanitize_filename_part ident) ++ "_info.csv"
  else
    ep ++ "_" ++ (if ident = "" then ep else sanitize_filename_part ident) ++ ".csv"

/-! ## Items, pages and the pagination loops (API.py:748-1057) -/

/-- One JSON object of an `itemList`/`comments` page: its `id`/`cid` field
(used as the CSV dedup key) plus the remaining fields (opaque payload). -/
structure Item where
  id : CellVal
  payload : String
deriving DecidableEq

/-- One successful page of a paginated endpoint: the endpoint's item-list
field, its continuation flag (`hasMore`/`has_more`) and its next cursor. -/
structure Page where
  itemList : List Item
  hasMore : Bool
  cursor : Nat
deriving DecidableEq

/-- The inner `for item in resp.get(...)` loop of every pagination method
(e.g. API.py:799-802): append items one at a time, breaking as soon as the
accumulator reaches `count`. -/
def appendUpTo (count : Nat) (videos : List Item) : List Item → List Item
  | [] => videos
  | i :: rest =>
    let v := videos ++ [i]
    if count ≤ v.length then v else appendUpTo count v rest

/-- The pagination loop shared by `get_video_comments` (API.py:884-899),
`get_sound_videos` (API.py:1017-1027) and `get_playlist_videos`
(API.py:1044-1054): run while fewer than `count` items are accumulated; a
failed fetch (`none`) ends the run with the partial accumulator; a page's
items are appended in order (breaking at `count`); a false continuation flag
ends the run.  The trace `rs` supplies the successive `fetch_api` results. -/
def simpleLoop (count : Nat) : List (Option Page) → List Item → List Item
  | [], videos => videos
  | none :: _, videos => videos
  | some p :: rest, videos =>
    if count ≤ videos.length then videos
    else
      let v := appendUpTo count videos p.itemList
      if p.hasMore then simpleLoop count rest v else v

/-- `get_sound_videos(sound_id, count)` (API.py:1012-1030), abstracted over
the response trace; the final `videos[:count]` truncation included. -/
def get_sound_videos (count : Nat) (rs : List (Option Page)) : List Item :=
  (simpleLoop count rs []).take count

/-- `get_playlist_videos(playlist_id, count)` (API.py:1039-1057), abstracted
over the response trace. -/
def get_playlist_videos (count : Nat) (rs : List (Option Page)) : List Item :=
  (simpleLoop count rs []).take count

/-- `get_video_comments(video_id, count)` (API.py:874-903): the returned
comment list, together with the `aweme_id` request parameter sent on every
page request (API.py:879-880, 886) and the `_cache_set` key (API.py:902). -/
def get_video_comments (videoId : String) (count : Nat) (rs : List (Option Page)) :
    List Item × String × String :=
  let vid := normalizeVideoId videoId
  ((simpleLoop count rs []).take count, vid, "video_comments:" ++ vid)

/-- The driver's memoized hidden-API session parameters
(`_ensure_hidden_api_session_params`, API.py:409-464); representative fields
of the ~25-entry dict. -/
structure SessParams where
  device_id : String
  app_language : String
  browser_platform : String
  tz_name : String
  screen_height : String
  screen_width : String
deriving DecidableEq

/-- A concrete session-parameter mapping, as `_ensure_hidden_api_session_params`
would derive it (API.py:436-463). -/
def exampleSess : SessParams :=
  { device_id := "7000000000000000000", app_language := "en",
    browser_platform := "MacIntel", tz_name := "America/New_York",
    screen_height := "1080", screen_width := "1920" }

/-- `_ensure_hidden_api_session_params` (API.py:409-464): return the memoized
mapping if present, otherwise derive a fresh one (`fresh` stands for the
result of the client-property queries) and memoize it.  Returns the mapping
used together with the new memo state. -/
def ensureSessionParams (cached : Option SessParams) (fresh : SessParams) :
    SessParams × Option SessParams :=
  match cached with
  | some p => (p, some p)
  | none => (fresh, some fresh)

/-- Loop state of `get_user_videos` (API.py:763-766): the accumulator, the
current cursor, the consecutive-failure counter and the driver's memoized
session parameters (`drv._hidden_api_session_params`). -/
structure UserSt where
  videos : List Item
  cursor : Nat
  cf : Nat
  sess : Option SessParams
deriving DecidableEq

/-- One iteration of the `get_user_videos` pagination loop (API.py:768-805).
On a failed fetch the consecutive-failure counter is incremented; reaching
`max_consecutive_failures = 4` returns the partial `videos[:count]`, and
otherwise `drv._hidden_api_session_params` is set to `None` (API.py:790)
before retrying.  On a success the counter resets, the page's items are
appended (breaking at `count`), a false `hasMore` ends the run, and the
cursor advances. -/
def userStep (count : Nat) (st : UserSt) (resp : Option Page) :
    UserSt ⊕ List Item :=
  match resp with
  | none =>
    let cf := st.cf + 1
    if 4 ≤ cf then .inr (st.videos.take count)
    else .inl { st with cf := cf, sess := none }
  | some p =>
    let v := appendUpTo count st.videos p.itemList
    if p.hasMore then .inl { videos := v, cursor := p.cursor, cf := 0, sess := st.sess }
    else .inr (v.take count)

/-- The `while len(videos) < count` loop of `get_user_videos`
(API.py:768-805), driven by the response trace. -/
def userLoop (count : Nat) : List (Option Page) → UserSt → List Item
  | [], st => st.videos.take count
  | r :: rest, st =>
    if count ≤ st.videos.length then st.videos.take count
    else
      match userStep count st r with
      | .inr out => out
      | .inl st' => userLoop count rest st'

/-- `get_user_videos(username, count)` (API.py:748-809), abstracted over the
response trace and the driver's initial memoized session parameters; the
final `videos[:count]` truncation is performed at every exit of the loop. -/
def get_user_videos (count : Nat) (rs : List (Option Page))
    (sp : Option SessParams) : List Item :=
  userLoop count rs { videos := [], cursor := 0, cf := 0, sess := sp }

/-- Loop state of `get_hashtag_videos` (API.py:825-828): accumulator, cursor,
the cumulative `blocked_retries` counter (never reset on success) and the
driver's memoized session parameters. -/
structure HashSt where
  videos : List Item
  cursor : Nat
  br : Nat
  sess : Option SessParams
deriving DecidableEq

/-- One iteration of the `get_hashtag_videos` loop (API.py:830-868).  On a
failed fetch `blocked_retries` is incremented; past `max_blocked_retries = 3`
the search fallback is invoked (once) and `(videos + fallback)[:count]` is
returned, and otherwise the session parameters are invalidated (API.py:854)
before retrying.  The second component of the terminal result counts the
fallback-strategy invocations of the step. -/
def hashtagStep (count : Nat) (fallback : List Item) (st : HashSt)
    (resp : Option Page) : HashSt ⊕ (List Item × Nat) :=
  match resp with
  | none =>
    let br := st.br + 1
    if 3 < br then .inr ((st.videos ++ fallback).take count, 1)
    else .inl { st with br := br, sess := none }
  | some p =>
    let v := appendUpTo count st.videos p.itemList
    if p.hasMore then .inl { videos := v, cursor := p.cursor, br := st.br, sess := st.sess }
    else .inr (v.take count, 0)

/-- The `while len(videos) < count` loop of `get_hashtag_videos`
(API.py:830-868); the returned `Nat` counts invocations of the
`search_videos` fallback strategy (API.py:844-847). -/
def hashtagLoop (count : Nat) (fallback : List Item) :
    List (Option Page) → HashSt → List Item × Nat
  | [], st => (st.videos.take count, 0)
  | r :: rest, st =>
    if count ≤ st.videos.length then (st.videos.take count, 0)
    else
      match hashtagStep count fallback st r with
      | .inr out => out
      | .inl st' => hashtagLoop count fallback rest st'

/-- `get_hashtag_videos(hashtag, count)` (API.py:811-872), abstracted over the
response trace, the list the search-fallback strategy would deliver, and the
driver's initial memoized session parameters. -/
def get_hashtag_videos (count : Nat) (fallback : List Item)
    (rs : List (Option Page)) (sp : Option SessParams) : List Item × Nat :=
  hashtagLoop count fallback rs { videos := [], cursor := 0, br := 0, sess := sp }

/-- Concatenation of the item lists of a sequence of pages, in page order. -/
def pagesItems (ps : List Page) : List Item :=
  (ps.map Page.itemList).flatten

/-- The leading run of successful responses of a trace (a failed fetch stops
the simple pagination loop). -/
def leadingSomes : List (Option Page) → List Page
  | [] => []
  | none :: _ => []
  | some p :: rest => p :: leadingSomes rest

/-! ## The `fetch_api` retry loop (API.py:466-668) -/

/-- The parsed JSON body of one attempt, at the granularity `fetch_api`
inspects it: its `statusCode` field (if present), the set of top-level keys
(for the expected-key test), and the remaining content (opaque). -/
structure JsonDict where
  statusCode : Option Int
  keys : List String
  body : String
deriving DecidableEq

/-- Outcome of one attempt of the `fetch_api` retry loop, after the in-context
fetch: an empty/short body (also covering transport errors, which yield an
empty body, API.py:541-542, 590), a JSON decode failure (API.py:638), any
other exception raised inside the per-attempt `try` (API.py:652), or a parsed
dict. -/
inductive AttemptOutcome where
  | emptyBody
  | malformed
  | exn
  | parsed (d : JsonDict)
deriving DecidableEq

/-- `_expected_keys` (API.py:518-535). -/
def expectedKeys (key : String) : List String :=
  if key = "user_detail" then ["userInfo"]
  else if key = "hashtag_detail" then ["challengeInfo"]
  else if key = "video_comments" then ["comments"]
  else if key = "search_users" then ["user_list"]
  else if key = "search_items" then ["item_list", "itemList", "data"]
  else if key = "search_general" then ["data", "item_list", "itemList"]
  else if key = "sound_detail" then ["musicInfo", "music"]
  else if key = "playlist_detail" then ["mixInfo", "mix"]
  else ["itemList"]

/-- Decision taken by one iteration of the retry loop (API.py:590-666). -/
inductive StepRes where
  | success (d : JsonDict)
  | retry
  | hardfail
deriving DecidableEq

/-- Classification of one attempt outcome by the body of the `for attempt`
loop (API.py:590-666): empty/short body, malformed body and in-attempt
exceptions retry; a parsed dict succeeds when `statusCode == 0` or an
expected key is present (API.py:611); otherwise `statusCode == 100002` on the
`hashtag_videos` endpoint hard-fails immediately (API.py:617-622) and any
other code retries. -/
def classifyAttempt (key : String) (o : AttemptOutcome) : StepRes :=
  match o with
  | .emptyBody => .retry
  | .malformed => .retry
  | .exn => .retry
  | .parsed d =>
    if d.statusCode = some 0 || (expectedKeys key).any (fun k => d.keys.contains k) then
      .success d
    else if key = "hashtag_videos" && d.statusCode = some (100002 : Int) then
      .hardfail
    else .retry

/-- The `for attempt in range(1, max_retries + 1)` loop of `fetch_api`
(API.py:550-668) with `max_retries = 5`: `env i` is the outcome of attempt
`i`; a retry decision continues only while `attempt < 5`.  Returns the result
together with the number of attempts made. -/
def fetchLoop (key : String) (env : Nat → AttemptOutcome) :
    Nat → Nat → Option JsonDict × Nat
  | attempt, 0 => (none, attempt - 1)
  | attempt, fuel + 1 =>
    match classifyAttempt key (env attempt) with
    | .success d => (some d, attempt)
    | .hardfail => (none, attempt)
    | .retry =>
      if attempt < 5 then fetchLoop key env (attempt + 1) fuel
      else (none, attempt)

/-- The retry loop of `fetch_api` from attempt 1, with the attempt count. -/
def fetch_api_attempts (key : String) (env : Nat → AttemptOutcome) :
    Option JsonDict × Nat :=
  fetchLoop key env 1 5

/-- The value returned by the retry loop of `fetch_api`. -/
def fetch_api (key : String) (env : Nat → AttemptOutcome) : Option JsonDict :=
  (fetch_api_attempts key env).1

/-- `HIDDEN_API_ENDPOINTS` (API.py:48-66). -/
def hidden_api_endpoints : List (String × String) :=
  [("user_detail", "/api/user/detail/"),
   ("user_videos", "/api/post/item_list/"),
   ("user_liked", "/api/favorite/item_list/"),
   ("user_playlists", "/api/user/playlist"),
   ("hashtag_detail", "/api/challenge/detail/"),
   ("hashtag_videos", "/api/challenge/item_list/"),
   ("video_comments", "/api/comment/list/"),
   ("comment_replies", "/api/comment/list/reply/"),
   ("related_videos", "/api/related/item_list/"),
   ("trending", "/api/recommend/item_list/"),
   ("search_users", "/api/search/user/full/"),
   ("search_items", "/api/search/item/full/"),
   ("search_general", "/api/search/general/full/"),
   ("sound_detail", "/api/music/detail/"),
   ("sound_videos", "/api/music/item_list/"),
   ("playlist_detail", "/api/mix/detail/"),
   ("playlist_videos", "/api/mix/item_list/")]

/-- Python exceptions that can escape `fetch_api`: the `KeyError` of
`HIDDEN_API_ENDPOINTS[endpoint_key]` (API.py:471) and a `WebDriverException`
escaping the unguarded `self.go(...)` of the signing-capability wait loop
(API.py:495). -/
inductive PyErr where
  | keyError
  | webDriverError
deriving DecidableEq

/-- The `byted_acrawler` wait loop (API.py:478-496): up to
`max_sign_attempts = 5` iterations; iteration `i` checks for the signing
capability (`check i`; an exception in the check is caught and counts as not
ready), and if not ready navigates to a recovery page — this `self.go` call
is outside any `try`, so a raising navigation (`navRaises i`) propagates. -/
def acrawlerWait (check navRaises : Nat → Bool) : Nat → Nat → Except PyErr Bool
  | _, 0 => .ok false
  | i, fuel + 1 =>
    if check i then .ok true
    else if navRaises i then .error .webDriverError
    else acrawlerWait check navRaises (i + 1) fuel

/-- `fetch_api(endpoint_key, params)` in full (API.py:466-668), as a total
function into `Except`: the endpoint-table lookup (API.py:471, raising
`KeyError` for an unknown key), the signing-capability wait loop (returning
`None` if the capability never loads, API.py:498-500, and propagating a
navigation exception), then the signed-fetch retry loop. -/
def fetch_api_total (endpoint_key : String) (check navRaises : Nat → Bool)
    (env : Nat → AttemptOutcome) : Except PyErr (Option JsonDict) :=
  match hidden_api_endpoints.lookup endpoint_key with
  | none => .error .keyError
  | some _path =>
    match acrawlerWait check navRaises 0 5 with
    | .error e => .error e
    | .ok false => .ok none
    | .ok true => .ok (fetch_api endpoint_key env)

/-! ## Result cache (API.py:694-708) and save helpers (API.py:1063-1133) -/

/-- A value stored in `PyktokAPI._last_ok`: `None`, a list of items, or a
dict response. -/
inductive PyVal where
  | pnone
  | plist (xs : List Item)
  | pdict (d : List (String × String))
deriving DecidableEq

/-- `PyktokAPI._last_ok`, a Python dict modelled as an association list whose
first binding for a key is current. -/
def Cache := List (String × PyVal)

/-- `_cache_set(key, value)` (API.py:698-705): `None` and empty lists/dicts
are dropped; everything else overwrites the entry. -/
def cache_set (c : Cache) (k : String) (v : PyVal) : Cache :=
  match v with
  | .pnone => c
  | .plist [] => c
  | .pdict [] => c
  | _ => (k, v) :: c

/-- `_cache_get(key, default)` with the `[]` default the CSV helpers use
(API.py:707-708). -/
def cache_get (c : Cache) (k : String) : PyVal :=
  (List.lookup k c).getD (.plist [])

/-- `generate_video_data_row(video_obj)` (API.py:100-140) at the granularity
the dedup step observes: the `video_id` column is the object's `id` field and
the remaining columns are a function of the object. -/
def generate_video_data_row (v : Item) : Row :=
  { key := v.id, payload := v.payload }

/-- `_comment_export_row(comment_obj)` (API.py:143-180) at the granularity the
dedup step observes: the `cid` column is the object's `cid` field and the
remaining columns are a function of the object. -/
def comment_export_row (c : Item) : Row :=
  { key := c.id, payload := c.payload }

/-- The `_cache_set`/`_cache_get` key of `get_user_videos` /
`save_user_videos_csv` (API.py:808, 1070): the username is stripped of
whitespace and leading `@`. -/
def user_videos_cache_key (username : String) : String :=
  "user_videos:" ++ pyStrip (lstripChar '@' (pyStrip username))

/-- The cache key of `get_hashtag_videos` / `save_hashtag_videos_csv`
(API.py:871, 1093). -/
def hashtag_videos_cache_key (hashtag : String) : String :=
  "hashtag_videos:" ++ pyStrip (lstripChar '#' (pyStrip hashtag))

/-- `save_user_videos_csv(username, count, filename)` (API.py:1063-1084),
with the refetch result (`self.get_user_videos(username, count)`) and the
current contents of the target path supplied explicitly.  Returns the
filename together with the rows written to that path (the empty branch writes
an empty CSV, fully replacing the file, API.py:1076). -/
def save_user_videos_csv (cache : Cache) (username : String)
    (fetched : List Item) (count : Nat) (filename? : Option String)
    (existing : Option (List Row)) : String × List Row :=
  let filename := filename?.getD (default_csv_filename "user_videos" username)
  let videos := fetched
  let videos :=
    if videos.isEmpty then
      match cache_get cache (user_videos_cache_key username) with
      | .plist cached => if cached.isEmpty then videos else cached.take count
      | _ => videos
    else videos
  if videos.isEmpty then (filename, [])
  else (filename, deduplicate existing (videos.map generate_video_data_row))

/-- `save_hashtag_videos_csv(hashtag, count, filename)` (API.py:1086-1107),
modelled like `save_user_videos_csv`. -/
def save_hashtag_videos_csv (cache : Cache) (hashtag : String)
    (fetched : List Item) (count : Nat) (filename? : Option String)
    (existing : Option (List Row)) : String × List Row :=
  let filename := filename?.getD (default_csv_filename "hashtag_videos" hashtag)
  let videos := fetched
  let videos :=
    if videos.isEmpty then
      match cache_get cache (hashtag_videos_cache_key hashtag) with
      | .plist cached => if cached.isEmpty then videos else cached.take count
      | _ => videos
    else videos
  if videos.isEmpty then (filename, [])
  else (filename, deduplicate existing (videos.map generate_video_data_row))

/-- `save_video_comments_csv(video_id, count, filename)` (API.py:1109-1133),
modelled like `save_user_videos_csv`; the video id is normalised with
`VIDEO_ID_REGEX` for the cache key, and the default filename re-applies the
same regex inside `_default_csv_filename`. -/
def save_video_comments_csv (cache : Cache) (videoId : String)
    (fetched : List Item) (count : Nat) (filename? : Option String)
    (existing : Option (List Row)) : String × List Row :=
  let vid := normalizeVideoId videoId
  let filename := filename?.getD (default_csv_filename "video_comments" videoId)
  let comments := fetched
  let comments :=
    if comments.isEmpty then
      match cache_get cache ("video_comments:" ++ vid) with
      | .plist cached => if cached.isEmpty then comments else cached.take count
      | _ => comments
    else comments
  if comments.isEmpty then (filename, [])
  else (filename, deduplicate existing (comments.map comment_export_row))

/-! ## Helper lemmas: pagination -/

theorem take_append_take {α : Type} (l m : List α) (n : Nat) :
    (l.take n ++ m).take n = (l ++ m).take n := by
  by_cases h : l.length ≤ n
  · rw [List.take_of_length_le h]
  · push_neg at h
    rw [List.take_append_of_le_length (le_of_lt h),
      List.take_append_of_le_length (n := n) (by simpa using le_of_lt h),
      List.take_take, Nat.min_self]

theorem appendUpTo_eq (count : Nat) (videos items : List Item)
    (h : videos.length < count) :
    appendUpTo count videos items = (videos ++ items).take count := by
  induction items generalizing videos with
  | nil => simp [appendUpTo, List.take_of_length_le (le_of_lt h)]
  | cons i rest ih =>
    simp only [appendUpTo]
    by_cases hc : count ≤ (videos ++ [i]).length
    · rw [if_pos hc]
      have hlen : (videos ++ [i]).length = count := by
        simp only [List.length_append, List.length_singleton] at hc ⊢
        omega
      have harr : videos ++ i :: rest = (videos ++ [i]) ++ rest := by simp
      rw [harr, ← hlen, List.take_left]
    · rw [if_neg hc]
      push_neg at hc
      rw [ih _ hc]
      simp

theorem simpleLoop_stops (count : Nat) (rs : List (Option Page))
    (videos : List Item) (h : count ≤ videos.length) :
    simpleLoop count rs videos = videos := by
  cases rs with
  | nil => rfl
  | cons r rest =>
    cases r with
    | none => rfl
    | some p => simp [simpleLoop, if_pos h]

theorem pagesItems_cons (p : Page) (ps : List Page) :
    pagesItems (p :: ps) = p.itemList ++ pagesItems ps := by
  simp [pagesItems]

theorem simpleLoop_eq_take (count : Nat) (rs : List (Option Page)) :
    ∀ videos : List Item, videos.length ≤ count →
      ∃ k, simpleLoop count rs videos
        = (videos ++ pagesItems ((leadingSomes rs).take k)).take count := by
  induction rs with
  | nil =>
    intro videos h
    exact ⟨0, by simp [simpleLoop, pagesItems, List.take_of_length_le h]⟩
  | cons r rest ih =>
    intro videos h
    cases r with
    | none =>
      exact ⟨0, by simp [simpleLoop, pagesItems, List.take_of_length_le h]⟩
    | some p =>
      by_cases hc : count ≤ videos.length
      · exact ⟨0, by simp [simpleLoop, if_pos hc, pagesItems,
          List.take_of_length_le h]⟩
      · push_neg at hc
        simp only [simpleLoop, if_neg (not_le.mpr hc)]
        rw [appendUpTo_eq count videos p.itemList hc]
        by_cases hm : p.hasMore
        · rw [if_pos hm]
          obtain ⟨k', hk'⟩ := ih ((videos ++ p.itemList).take count)
            (List.length_take_le _ _)
          refine ⟨k' + 1, ?_⟩
          rw [hk', take_append_take]
          simp only [leadingSomes, List.take_succ_cons, pagesItems_cons]
          rw [List.append_assoc]
        · rw [if_neg hm]
          refine ⟨1, ?_⟩
          simp [leadingSomes, pagesItems]

theorem userLoop_stops (count : Nat) (rs : List (Option Page)) (st : UserSt)
    (h : count ≤ st.videos.length) :
    userLoop count rs st = st.videos.take count := by
  cases rs with
  | nil => rfl
  | cons r rest => simp [userLoop, if_pos h]

theorem userLoop_eq_take (count : Nat) (rs : List (Option Page)) :
    ∀ st : UserSt, st.videos.length ≤ count →
      ∃ k, userLoop count rs st
        = (st.videos ++ pagesItems ((rs.take k).filterMap id)).take count := by
  induction rs with
  | nil =>
    intro st h
    exact ⟨0, by simp [userLoop, pagesItems]⟩
  | cons r rest ih =>
    intro st h
    by_cases hc : count ≤ st.videos.length
    · exact ⟨0, by simp [userLoop, if_pos hc, pagesItems]⟩
    · push_neg at hc
      cases r with
      | none =>
        simp only [userLoop, if_neg (not_le.mpr hc), userStep]
        by_cases h4 : 4 ≤ st.cf + 1
        · rw [if_pos h4]
          exact ⟨0, by simp [pagesItems]⟩
        · rw [if_neg h4]
          obtain ⟨k', hk'⟩ := ih { st with cf := st.cf + 1, sess := none }
            (le_of_lt hc)
          refine ⟨k' + 1, ?_⟩
          simpa using hk'
      | some p =>
        simp only [userLoop, if_neg (not_le.mpr hc), userStep]
        rw [appendUpTo_eq count st.videos p.itemList hc]
        by_cases hm : p.hasMore
        · rw [if_pos hm]
          obtain ⟨k', hk'⟩ := ih
            { videos := (st.videos ++ p.itemList).take count,
              cursor := p.cursor, cf := 0, sess := st.sess }
            (List.length_take_le _ _)
          refine ⟨k' + 1, ?_⟩
          show userLoop count rest
            { videos := (st.videos ++ p.itemList).take count,
              cursor := p.cursor, cf := 0, sess := st.sess } = _
          rw [hk']
          simp only [List.take_succ_cons, List.filterMap_cons, id, pagesItems_cons]
          rw [take_append_take, List.append_assoc]
        · rw [if_neg hm]
          refine ⟨1, ?_⟩
          simp [pagesItems, List.take_take]

theorem hashtagLoop_stops (count : Nat) (fb : List Item)
    (rs : List (Option Page)) (st : HashSt) (h : count ≤ st.videos.length) :
    hashtagLoop count fb rs st = (st.videos.take count, 0) := by
  cases rs with
  | nil => rfl
  | cons r rest => simp [hashtagLoop, if_pos h]

theorem hashtagLoop_eq_take (count : Nat) (fb : List Item)
    (rs : List (Option Page)) :
    ∀ st : HashSt, st.videos.length ≤ count →
      ∃ (k : Nat) (b : Bool), (hashtagLoop count fb rs st).1
        = (st.videos ++ pagesItems ((rs.take k).filterMap id)
            ++ cond b fb []).take count := by
  induction rs with
  | nil =>
    intro st h
    exact ⟨0, false, by simp [hashtagLoop, pagesItems]⟩
  | cons r rest ih =>
    intro st h
    by_cases hc : count ≤ st.videos.length
    · exact ⟨0, false, by simp [hashtagLoop, if_pos hc, pagesItems]⟩
    · push_neg at hc
      cases r with
      | none =>
        simp only [hashtagLoop, if_neg (not_le.mpr hc), hashtagStep]
        by_cases h4 : 3 < st.br + 1
        · rw [if_pos h4]
          exact ⟨0, true, by simp [pagesItems]⟩
        · rw [if_neg h4]
          obtain ⟨k', b', hk'⟩ := ih { st with br := st.br + 1, sess := none }
            (le_of_lt hc)
          refine ⟨k' + 1, b', ?_⟩
          simpa using hk'
      | some p =>
        simp only [hashtagLoop, if_neg (not_le.mpr hc), hashtagStep]
        rw [appendUpTo_eq count st.videos p.itemList hc]
        by_cases hm : p.hasMore
        · rw [if_pos hm]
          obtain ⟨k', b', hk'⟩ := ih
            { videos := (st.videos ++ p.itemList).take count,
              cursor := p.cursor, br := st.br, sess := st.sess }
            (List.length_take_le _ _)
          refine ⟨k' + 1, b', ?_⟩
          show (hashtagLoop count fb rest
            { videos := (st.videos ++ p.itemList).take count,
              cursor := p.cursor, br := st.br, sess := st.sess }).1 = _
          rw [hk']
          simp only [List.take_succ_cons, List.filterMap_cons, id, pagesItems_cons]
          rw [List.append_assoc, take_append_take, ← List.append_assoc,
            ← List.append_assoc]
        · rw [if_neg hm]
          refine ⟨1, false, ?_⟩
          simp [pagesItems, List.take_take]

/-! ## Helper lemmas: merge/dedup -/

theorem dropDupAux_subset (l : List Row) :
    ∀ (seen : List CellVal) (r : Row), r ∈ dropDupAux seen l → r ∈ l := by
  induction l with
  | nil => intro seen r h; simp [dropDupAux] at h
  | cons x rest ih =>
    intro seen r h
    simp only [dropDupAux] at h
    by_cases hx : x.key ∈ seen
    · rw [if_pos hx] at h
      exact List.mem_cons_of_mem _ (ih seen r h)
    · rw [if_neg hx] at h
      rcases List.mem_cons.mp h with h | h
      · exact h ▸ List.mem_cons_self _ _
      · exact List.mem_cons_of_mem _ (ih _ r h)

theorem mem_keys_dropDupAux (l : List Row) :
    ∀ (seen : List CellVal) (k : CellVal),
      k ∈ (dropDupAux seen l).map Row.key ↔ k ∈ l.map Row.key ∧ k ∉ seen := by
  induction l with
  | nil => intro seen k; simp [dropDupAux]
  | cons x rest ih =>
    intro seen k
    simp only [dropDupAux]
    by_cases hx : x.key ∈ seen
    · rw [if_pos hx, ih]
      simp only [List.map_cons, List.mem_cons]
      constructor
      · rintro ⟨h1, h2⟩
        exact ⟨Or.inr h1, h2⟩
      · rintro ⟨h1 | h1, h2⟩
        · exact absurd (h1 ▸ hx) h2
        · exact ⟨h1, h2⟩
    · rw [if_neg hx]
      simp only [List.map_cons, List.mem_cons, ih, not_or]
      by_cases hk : k = x.key
      · subst hk
        simp [hx]
      · simp only [hk, false_or]
        tauto

theorem nodup_keys_dropDupAux (l : List Row) :
    ∀ seen : List CellVal, ((dropDupAux seen l).map Row.key).Nodup := by
  induction l with
  | nil => intro seen; simp [dropDupAux]
  | cons x rest ih =>
    intro seen
    simp only [dropDupAux]
    by_cases hx : x.key ∈ seen
    · rw [if_pos hx]; exact ih seen
    · rw [if_neg hx]
      simp only [List.map_cons, List.nodup_cons]
      refine ⟨fun hmem => ?_, ih _⟩
      exact ((mem_keys_dropDupAux rest _ _).mp hmem).2 (List.mem_cons_self _ _)

theorem find?_cons_key (x : Row) (l : List Row) (k : CellVal) :
    List.find? (fun r => r.key == k) (x :: l)
      = if x.key = k then some x else List.find? (fun r => r.key == k) l := by
  by_cases h : x.key = k
  · rw [if_pos h]
    exact List.find?_cons_of_pos _ (by simp [h])
  · rw [if_neg h]
    exact List.find?_cons_of_neg _ (by simp [h])

theorem find?_dropDupAux (l : List Row) :
    ∀ (seen : List CellVal) (k : CellVal), k ∉ seen →
      (dropDupAux seen l).find? (fun r => r.key == k)
        = l.find? (fun r => r.key == k) := by
  induction l with
  | nil => intro seen k _; simp [dropDupAux]
  | cons x rest ih =>
    intro seen k hk
    simp only [dropDupAux]
    by_cases hx : x.key ∈ seen
    · rw [if_pos hx, ih seen k hk, find?_cons_key,
        if_neg (fun he : x.key = k => hk (he ▸ hx))]
    · rw [if_neg hx]
      by_cases hxk : x.key = k
      · rw [find?_cons_key, find?_cons_key, if_pos hxk, if_pos hxk]
      · rw [find?_cons_key, find?_cons_key, if_neg hxk, if_neg hxk]
        exact ih _ k (by
          intro hmem
          rcases List.mem_cons.mp hmem with h | h
          · exact hxk h.symm
          · exact hk h)

theorem dropDupAux_eq_nil (xs : List Row) :
    ∀ seen : List CellVal, (∀ k ∈ xs.map Row.key, k ∈ seen) →
      dropDupAux seen xs = [] := by
  induction xs with
  | nil => intro seen _; rfl
  | cons x rest ih =>
    intro seen h
    have hx : x.key ∈ seen := h x.key (by simp)
    simp only [dropDupAux, if_pos hx]
    exact ih seen fun k hk => h k (by simp [hk])

theorem dropDupAux_append_absorb (xs : List Row) :
    ∀ (l : List Row) (seen : List CellVal),
      (∀ k ∈ xs.map Row.key, k ∈ seen ∨ k ∈ l.map Row.key) →
      dropDupAux seen (l ++ xs) = dropDupAux seen l := by
  intro l
  induction l with
  | nil =>
    intro seen h
    simp only [List.nil_append, dropDupAux]
    exact dropDupAux_eq_nil xs seen fun k hk => by
      rcases h k hk with h1 | h1
      · exact h1
      · simp at h1
  | cons x rest ih =>
    intro seen h
    simp only [List.cons_append, dropDupAux]
    by_cases hx : x.key ∈ seen
    · rw [if_pos hx, if_pos hx]
      exact ih seen fun k hk => by
        rcases h k hk with h1 | h1
        · exact Or.inl h1
        · rw [List.map_cons] at h1
          rcases List.mem_cons.mp h1 with h2 | h2
          · exact Or.inl (h2 ▸ hx)
          · exact Or.inr h2
    · rw [if_neg hx, if_neg hx]
      congr 1
      exact ih (x.key :: seen) fun k hk => by
        rcases h k hk with h1 | h1
        · exact Or.inl (List.mem_cons_of_mem _ h1)
        · rw [List.map_cons] at h1
          rcases List.mem_cons.mp h1 with h2 | h2
          · exact Or.inl (by simp [h2])
          · exact Or.inr h2

theorem dropDupAux_of_nodup (l : List Row) :
    ∀ seen : List CellVal, (l.map Row.key).Nodup →
      (∀ r ∈ l, r.key ∉ seen) → dropDupAux seen l = l := by
  induction l with
  | nil => intro seen _ _; rfl
  | cons x rest ih =>
    intro seen hnd hs
    have hx : x.key ∉ seen := hs x (List.mem_cons_self _ _)
    simp only [dropDupAux, if_neg hx]
    congr 1
    simp only [List.map_cons, List.nodup_cons] at hnd
    exact ih (x.key :: seen) hnd.2 fun r hr => by
      intro hmem
      rcases List.mem_cons.mp hmem with h1 | h1
      · exact hnd.1 (h1 ▸ List.mem_map_of_mem Row.key hr)
      · exact hs r (List.mem_cons_of_mem _ hr) h1

theorem dropDuplicatesByKey_ne_nil (x : Row) (l : List Row) :
    dropDuplicatesByKey (x :: l) ≠ [] := by
  simp [dropDuplicatesByKey, dropDupAux]

theorem coerceKey_idem (r : Row) : coerceKey (coerceKey r) = coerceKey r := rfl

theorem deduplicate_coerce_fixed (existing : Option (List Row))
    (newRows : List Row) :
    ∀ r ∈ deduplicate existing newRows, coerceKey r = r := by
  intro r hr
  have hr' : r ∈ (existingPlusNew existing newRows).map coerceKey :=
    dropDupAux_subset _ [] r hr
  obtain ⟨x, _, hx⟩ := List.mem_map.mp hr'
  rw [← hx, coerceKey_idem]

theorem map_coerce_of_fixed (l : List Row) (h : ∀ r ∈ l, coerceKey r = r) :
    l.map coerceKey = l := by
  induction l with
  | nil => rfl
  | cons x rest ih =>
    simp only [List.map_cons]
    rw [h x (List.mem_cons_self _ _), ih fun r hr => h r (List.mem_cons_of_mem _ hr)]

theorem keys_deduplicate (existing : Option (List Row)) (newRows : List Row)
    (k : CellVal) :
    k ∈ (deduplicate existing newRows).map Row.key
      ↔ k ∈ ((existingPlusNew existing newRows).map coerceKey).map Row.key := by
  rw [show deduplicate existing newRows
    = dropDupAux [] ((existingPlusNew existing newRows).map coerceKey) from rfl]
  rw [mem_keys_dropDupAux]
  simp

/-! ## Helper lemmas: the fetch retry loop -/

theorem fetchLoop_attempts_le (key : String) (env : Nat → AttemptOutcome) :
    ∀ (fuel attempt : Nat), 1 ≤ attempt → attempt + fuel ≤ 6 →
      (fetchLoop key env attempt fuel).2 ≤ 5 := by
  intro fuel
  induction fuel with
  | zero =>
    intro attempt h1 h6
    simp only [fetchLoop]
    omega
  | succ n ih =>
    intro attempt h1 h6
    simp only [fetchLoop]
    cases classifyAttempt key (env attempt) with
    | success d => simp; omega
    | hardfail => simp; omega
    | retry =>
      simp only
      by_cases h5 : attempt < 5
      · rw [if_pos h5]
        exact ih (attempt + 1) (by omega) (by omega)
      · rw [if_neg h5]
        simp
        omega

theorem fetchLoop_congr (key : String) (env env' : Nat → AttemptOutcome)
    (henv : ∀ i, i ≤ 5 → env i = env' i) :
    ∀ (fuel attempt : Nat), attempt + fuel ≤ 6 →
      fetchLoop key env attempt fuel = fetchLoop key env' attempt fuel := by
  intro fuel
  induction fuel with
  | zero => intro attempt _; rfl
  | succ n ih =>
    intro attempt h6
    simp only [fetchLoop]
    rw [henv attempt (by omega)]
    cases classifyAttempt key (env' attempt) with
    | success d => rfl
    | hardfail => rfl
    | retry =>
      simp only
      by_cases h5 : attempt < 5
      · rw [if_pos h5, if_pos h5]
        exact ih (attempt + 1) (by omega)
      · rw [if_neg h5, if_neg h5]

theorem fetchLoop_all_retry (key : String) (env : Nat → AttemptOutcome)
    (h : ∀ i, 1 ≤ i → i ≤ 5 → classifyAttempt key (env i) = .retry) :
    ∀ (fuel attempt : Nat), attempt + fuel = 6 → 1 ≤ attempt →
      fetchLoop key env attempt fuel = (none, 5) := by
  intro fuel
  induction fuel with
  | zero =>
    intro attempt h6 _
    simp only [fetchLoop]
    -- attempt = 6, so attempt - 1 = 5
    rw [show attempt = 6 by omega]
  | succ n ih =>
    intro attempt h6 h1
    simp only [fetchLoop]
    rw [h attempt h1 (by omega)]
    simp only
    by_cases h5 : attempt < 5
    · rw [if_pos h5]
      exact ih (attempt + 1) (by omega) (by omega)
    · rw [if_neg h5]
      rw [show attempt = 5 by omega]

/-! ## Helper lemmas: nonemptiness, first-occurrence search, first pages -/

theorem find?_append_of_mem_keys (l₁ l₂ : List Row) (k : CellVal)
    (h : k ∈ l₁.map Row.key) :
    (l₁ ++ l₂).find? (fun r => r.key == k) = l₁.find? (fun r => r.key == k) := by
  induction l₁ with
  | nil => simp at h
  | cons x rest ih =>
    rw [List.cons_append, find?_cons_key, find?_cons_key]
    by_cases hx : x.key = k
    · rw [if_pos hx, if_pos hx]
    · rw [if_neg hx, if_neg hx]
      apply ih
      rw [List.map_cons] at h
      rcases List.mem_cons.mp h with h | h
      · exact absurd h.symm hx
      · exact h

theorem existingPlusNew_ne_nil (e : Option (List Row)) (n : List Row)
    (h : n ≠ []) : existingPlusNew e n ≠ [] := by
  cases e with
  | none => exact h
  | some old =>
    show old ++ n ≠ []
    simp [h]

theorem deduplicate_ne_nil (e : Option (List Row)) (n : List Row)
    (h : existingPlusNew e n ≠ []) : deduplicate e n ≠ [] := by
  cases hl : existingPlusNew e n with
  | nil => exact absurd hl h
  | cons x rest =>
    show dropDuplicatesByKey ((existingPlusNew e n).map coerceKey) ≠ []
    rw [hl, List.map_cons]
    exact dropDuplicatesByKey_ne_nil _ _

theorem take_ne_nil_of_pos (xs : List Item) (count : Nat)
    (hxs : xs ≠ []) (hc : 0 < count) : xs.take count ≠ [] := by
  cases xs with
  | nil => exact absurd rfl hxs
  | cons x rest =>
    cases count with
    | zero => omega
    | succ n => simp

theorem simpleLoop_first_page (count : Nat) (p : Page)
    (rest : List (Option Page))
    (h : p.hasMore = false ∨ count ≤ p.itemList.length) :
    (simpleLoop count (some p :: rest) []).take count
      = p.itemList.take count := by
  by_cases hcz : count = 0
  · subst hcz
    simp [simpleLoop]
  · have hc : ¬ count ≤ ([] : List Item).length := by simp; omega
    simp only [simpleLoop, if_neg hc]
    rw [appendUpTo_eq count [] p.itemList (by simp; omega), List.nil_append]
    by_cases hm : p.hasMore
    · rw [if_pos hm]
      have hlen : count ≤ p.itemList.length := by
        rcases h with h | h
        · rw [hm] at h; cases h
        · exact h
      rw [simpleLoop_stops count rest _ (by rw [List.length_take]; omega)]
      simp [List.take_take]
    · rw [if_neg hm]
      simp [List.take_take]

theorem userLoop_first_page (count : Nat) (p : Page)
    (rest : List (Option Page)) (sp : Option SessParams)
    (h : p.hasMore = false ∨ count ≤ p.itemList.length) :
    get_user_videos count (some p :: rest) sp = p.itemList.take count := by
  by_cases hcz : count = 0
  · subst hcz
    simp [get_user_videos, userLoop]
  · have hc : ¬ count ≤ (0 : Nat) := by omega
    simp only [get_user_videos, userLoop, List.length_nil, if_neg hc, userStep]
    rw [appendUpTo_eq count [] p.itemList (by simp; omega), List.nil_append]
    by_cases hm : p.hasMore
    · rw [if_pos hm]
      have hlen : count ≤ p.itemList.length := by
        rcases h with h | h
        · rw [hm] at h; cases h
        · exact h
      show userLoop count rest _ = _
      rw [userLoop_stops count rest _ (by rw [List.length_take]; omega)]
      simp [List.take_take]
    · rw [if_neg hm]
      simp [List.take_take]

theorem hashtagLoop_first_page (count : Nat) (fb : List Item) (p : Page)
    (rest : List (Option Page)) (sp : Option SessParams)
    (h : p.hasMore = false ∨ count ≤ p.itemList.length) :
    (get_hashtag_videos count fb (some p :: rest) sp).1
      = p.itemList.take count := by
  by_cases hcz : count = 0
  · subst hcz
    simp [get_hashtag_videos, hashtagLoop]
  · have hc : ¬ count ≤ (0 : Nat) := by omega
    simp only [get_hashtag_videos, hashtagLoop, List.length_nil, if_neg hc,
      hashtagStep]
    rw [appendUpTo_eq count [] p.itemList (by simp; omega), List.nil_append]
    by_cases hm : p.hasMore
    · rw [if_pos hm]
      have hlen : count ≤ p.itemList.length := by
        rcases h with h | h
        · rw [hm] at h; cases h
        · exact h
      show (hashtagLoop count fb rest _).1 = _
      rw [hashtagLoop_stops count fb rest _ (by rw [List.length_take]; omega)]
      simp [List.take_take]
    · rw [if_neg hm]
      simp [List.take_take]

theorem default_csv_filename_video_comments (ident : String) :
    default_csv_filename "video_comments" ident
      = (match extractVideoId (pyStrip ident) with
        | some vid => "comments_" ++ vid ++ ".csv"
        | none => "comments_" ++ sanitize_filename_part (pyStrip ident)
            ++ ".csv") := by
  simp only [default_csv_filename,
    show pyLower (pyStrip "video_comments") = "video_comments" from by decide]
  simp

theorem userLoop_four_failures (count : Nat) (rest : List (Option Page))
    (st : UserSt) (hcf : st.cf = 0) :
    userLoop count (none :: none :: none :: none :: rest) st
      = st.videos.take count := by
  obtain ⟨videos, cursor, cf, sess⟩ := st
  simp only at hcf
  subst hcf
  by_cases hc : count ≤ videos.length
  · simp [userLoop, if_pos hc]
  · simp [userLoop, userStep, if_neg hc]

theorem hashtagLoop_four_failures (count : Nat) (fb : List Item)
    (rest : List (Option Page)) (st : HashSt) (hbr : st.br = 0)
    (hc : st.videos.length < count) :
    hashtagLoop count fb (none :: none :: none :: none :: rest) st
      = ((st.videos ++ fb).take count, 1) := by
  obtain ⟨videos, cursor, br, sess⟩ := st
  simp only at hbr hc
  subst hbr
  simp [hashtagLoop, hashtagStep, if_neg (not_le.mpr hc)]

/-! ## Claim theorems -/

/-- Claim C2: for every existing CSV file and every new row set,
`_deduplicate` produces exactly the rows whose string-coerced keys form the
union of the on-disk keys and the new keys — each key exactly once — and on a
key collision the on-disk row (the first occurrence in the existing-then-new
concatenation) is the one retained.  In particular, writing rows with keys
1,2 to an empty file and then rows with keys 2,3 yields exactly three rows
with keys 1,2,3, the collision key keeping its on-disk payload. -/
theorem claim_C2_merge_dedup :
    (∀ (old newRows : List Row) (k : CellVal),
      ((deduplicate (some old) newRows).map Row.key).Nodup
      ∧ (k ∈ (deduplicate (some old) newRows).map Row.key
          ↔ k ∈ (old.map coerceKey).map Row.key
            ∨ k ∈ (newRows.map coerceKey).map Row.key)
      ∧ (k ∈ (old.map coerceKey).map Row.key →
          (deduplicate (some old) newRows).find? (fun r => r.key == k)
            = (old.map coerceKey).find? (fun r => r.key == k)))
    ∧ deduplicate
        (some (deduplicate none [⟨.str "1", "a"⟩, ⟨.str "2", "b"⟩]))
        [⟨.str "2", "c"⟩, ⟨.str "3", "d"⟩]
      = [⟨.str "1", "a"⟩, ⟨.str "2", "b"⟩, ⟨.str "3", "d"⟩] := by
  constructor
  · intro old newRows k
    refine ⟨nodup_keys_dropDupAux _ _, ?_, ?_⟩
    · rw [keys_deduplicate]
      show k ∈ ((old ++ newRows).map coerceKey).map Row.key ↔ _
      rw [List.map_append, List.map_append, List.mem_append]
    · intro hk
      show (dropDupAux [] ((existingPlusNew (some old) newRows).map coerceKey)).find? _ = _
      rw [find?_dropDupAux _ [] k (List.not_mem_nil k)]
      show ((old ++ newRows).map coerceKey).find? _ = _
      rw [List.map_append]
      exact find?_append_of_mem_keys _ _ k hk
  · decide

/-- Claim C3: `mergeAndWrite` is idempotent — for a fixed dedup key, merging
and writing the same new rows twice against the same file yields the same
final row set as merging and writing them once. -/
theorem claim_C3_idempotent (existing : Option (List Row))
    (newRows : List Row) :
    deduplicate (some (deduplicate existing newRows)) newRows
      = deduplicate existing newRows := by
  have hfix : (deduplicate existing newRows).map coerceKey
      = deduplicate existing newRows :=
    map_coerce_of_fixed _ (deduplicate_coerce_fixed existing newRows)
  show dropDupAux []
    ((existingPlusNew (some (deduplicate existing newRows)) newRows).map coerceKey)
    = deduplicate existing newRows
  have hmap : (existingPlusNew (some (deduplicate existing newRows)) newRows).map
      coerceKey = deduplicate existing newRows ++ newRows.map coerceKey := by
    show ((deduplicate existing newRows ++ newRows).map coerceKey) = _
    rw [List.map_append, hfix]
  rw [hmap]
  have habs : ∀ k ∈ (newRows.map coerceKey).map Row.key,
      k ∈ ([] : List CellVal) ∨ k ∈ (deduplicate existing newRows).map Row.key := by
    intro k hk
    right
    rw [keys_deduplicate]
    cases existing with
    | none => exact hk
    | some old =>
      show k ∈ ((old ++ newRows).map coerceKey).map Row.key
      rw [List.map_append, List.map_append, List.mem_append]
      exact Or.inr hk
  rw [dropDupAux_append_absorb _ _ _ habs]
  exact dropDupAux_of_nodup _ [] (nodup_keys_dropDupAux _ _)
    (fun r _ => List.not_mem_nil _)

/-- Concrete instance of the collision clause of C2: with key 1 both on disk
and among the new rows, the merged file keeps the on-disk row. -/
theorem claim_C2_merge_dedup_witness :
    (deduplicate (some [⟨CellVal.str "1", "a"⟩]) [⟨CellVal.str "1", "z"⟩]).find?
        (fun r => r.key == CellVal.str "1")
      = (([⟨CellVal.str "1", "a"⟩] : List Row).map coerceKey).find?
        (fun r => r.key == CellVal.str "1") :=
  (claim_C2_merge_dedup.1 [⟨CellVal.str "1", "a"⟩] [⟨CellVal.str "1", "z"⟩]
    (CellVal.str "1")).2.2 (by decide)

/-- Claim C1: every paginated listing call (`get_user_videos`,
`get_hashtag_videos`, `get_video_comments`, `get_sound_videos`,
`get_playlist_videos`) with target count `count` returns at most `count`
items; the returned list is a `count`-truncated concatenation, in order, of
the item lists of the successfully fetched pages of the run (so no
reordering and no duplication of a page position within a run — for the
hashtag listing possibly followed by the fallback list); and the loop stops
as soon as `count` items are accumulated or the continuation flag is false
(the result is then independent of any further responses). -/
theorem claim_C1_pagination (count : Nat) (rs : List (Option Page))
    (sp : Option SessParams) (fb : List Item) (vid : String) :
    ((get_sound_videos count rs).length ≤ count
      ∧ ∃ k, get_sound_videos count rs
          = (pagesItems ((leadingSomes rs).take k)).take count)
    ∧ ((get_playlist_videos count rs).length ≤ count
      ∧ ∃ k, get_playlist_videos count rs
          = (pagesItems ((leadingSomes rs).take k)).take count)
    ∧ ((get_video_comments vid count rs).1.length ≤ count
      ∧ ∃ k, (get_video_comments vid count rs).1
          = (pagesItems ((leadingSomes rs).take k)).take count)
    ∧ ((get_user_videos count rs sp).length ≤ count
      ∧ ∃ k, get_user_videos count rs sp
          = (pagesItems ((rs.take k).filterMap id)).take count)
    ∧ ((get_hashtag_videos count fb rs sp).1.length ≤ count
      ∧ ∃ (k : Nat) (b : Bool), (get_hashtag_videos count fb rs sp).1
          = (pagesItems ((rs.take k).filterMap id) ++ cond b fb []).take count)
    ∧ (∀ (p : Page) (rest rest' : List (Option Page)),
        p.hasMore = false ∨ count ≤ p.itemList.length →
          get_sound_videos count (some p :: rest)
              = get_sound_videos count (some p :: rest')
          ∧ get_user_videos count (some p :: rest) sp
              = get_user_videos count (some p :: rest') sp
          ∧ (get_hashtag_videos count fb (some p :: rest) sp).1
              = (get_hashtag_videos count fb (some p :: rest') sp).1) := by
  obtain ⟨ks, hks⟩ := simpleLoop_eq_take count rs [] (by simp)
  obtain ⟨ku, hku⟩ := userLoop_eq_take count rs
    { videos := [], cursor := 0, cf := 0, sess := sp } (by simp)
  obtain ⟨kh, bh, hkh⟩ := hashtagLoop_eq_take count fb rs
    { videos := [], cursor := 0, br := 0, sess := sp } (by simp)
  have hsound : get_sound_videos count rs
      = (pagesItems ((leadingSomes rs).take ks)).take count := by
    show (simpleLoop count rs []).take count = _
    rw [hks, List.nil_append, List.take_take, Nat.min_self]
  have huser : get_user_videos count rs sp
      = (pagesItems ((rs.take ku).filterMap id)).take count := by
    show userLoop count rs _ = _
    rw [hku, List.nil_append]
  have hhash : (get_hashtag_videos count fb rs sp).1
      = (pagesItems ((rs.take kh).filterMap id) ++ cond bh fb []).take count := by
    show (hashtagLoop count fb rs _).1 = _
    rw [hkh, List.nil_append]
  refine ⟨⟨?_, ks, hsound⟩, ⟨?_, ks, hsound⟩, ⟨?_, ks, hsound⟩,
    ⟨?_, ku, huser⟩, ⟨?_, kh, bh, hhash⟩, ?_⟩
  · rw [hsound]; exact List.length_take_le _ _
  · rw [show get_playlist_videos count rs = get_sound_videos count rs from rfl,
      hsound]
    exact List.length_take_le _ _
  · rw [show (get_video_comments vid count rs).1 = get_sound_videos count rs
      from rfl, hsound]
    exact List.length_take_le _ _
  · rw [huser]; exact List.length_take_le _ _
  · rw [hhash]; exact List.length_take_le _ _
  · intro p rest rest' h
    refine ⟨?_, ?_, ?_⟩
    · show (simpleLoop count (some p :: rest) []).take count
        = (simpleLoop count (some p :: rest') []).take count
      rw [simpleLoop_first_page count p rest h,
        simpleLoop_first_page count p rest' h]
    · rw [userLoop_first_page count p rest sp h,
        userLoop_first_page count p rest' sp h]
    · rw [hashtagLoop_first_page count fb p rest sp h,
        hashtagLoop_first_page count fb p rest' sp h]

/-- Concrete instance of C1: a first page with `hasMore = false` makes the
run independent of later responses, and the length bound holds at a page
larger than the target count. -/
theorem claim_C1_pagination_witness :
    get_sound_videos 2
        [some ⟨[⟨CellVal.int 1, ""⟩, ⟨CellVal.int 2, ""⟩, ⟨CellVal.int 3, ""⟩],
          false, 7⟩, some ⟨[⟨CellVal.int 9, ""⟩], true, 8⟩]
      = get_sound_videos 2
        [some ⟨[⟨CellVal.int 1, ""⟩, ⟨CellVal.int 2, ""⟩, ⟨CellVal.int 3, ""⟩],
          false, 7⟩, none]
    ∧ (get_sound_videos 2
        [some ⟨[⟨CellVal.int 1, ""⟩, ⟨CellVal.int 2, ""⟩, ⟨CellVal.int 3, ""⟩],
          false, 7⟩]).length ≤ 2 :=
  ⟨((claim_C1_pagination 2 [] none [] "v").2.2.2.2.2
      ⟨[⟨CellVal.int 1, ""⟩, ⟨CellVal.int 2, ""⟩, ⟨CellVal.int 3, ""⟩], false, 7⟩
      [some ⟨[⟨CellVal.int 9, ""⟩], true, 8⟩] [none] (Or.inl rfl)).1,
    (claim_C1_pagination 2
      [some ⟨[⟨CellVal.int 1, ""⟩, ⟨CellVal.int 2, ""⟩, ⟨CellVal.int 3, ""⟩],
        false, 7⟩] none [] "v").1.1⟩

/-- Claim C4: every logical call is bounded by its fixed attempt cap —
`fetch_api` makes at most 5 attempts per call (and its result depends only on
the first 5 attempt outcomes), the user-videos pagination loop tolerates at
most 4 consecutive failures, and the hashtag listing recovery tolerates at
most 3 blocked retries — and after cap exhaustion control returns to the
caller with `None` (for `fetch_api`) or the partial accumulator (for the
listing loops), never an exception and never a hang. -/
theorem claim_C4_attempt_caps :
    (∀ (key : String) (env : Nat → AttemptOutcome),
      (fetch_api_attempts key env).2 ≤ 5)
    ∧ (∀ (key : String) (env env' : Nat → AttemptOutcome),
        (∀ i, i ≤ 5 → env i = env' i) →
        fetch_api_attempts key env = fetch_api_attempts key env')
    ∧ (∀ (key : String) (env : Nat → AttemptOutcome),
        (∀ i, 1 ≤ i → i ≤ 5 → classifyAttempt key (env i) = .retry) →
        fetch_api_attempts key env = (none, 5))
    ∧ (∀ (count : Nat) (rest : List (Option Page)) (st : UserSt), st.cf = 0 →
        userLoop count (none :: none :: none :: none :: rest) st
          = st.videos.take count)
    ∧ (∀ (count : Nat) (rest : List (Option Page)) (sp : Option SessParams),
        get_user_videos count (none :: none :: none :: none :: rest) sp = [])
    ∧ (∀ (count : Nat) (fb : List Item) (rest : List (Option Page))
          (st : HashSt), st.br = 0 → st.videos.length < count →
        hashtagLoop count fb (none :: none :: none :: none :: rest) st
          = ((st.videos ++ fb).take count, 1))
    ∧ (∀ (count : Nat) (rest : List (Option Page)) (videos : List Item),
        simpleLoop count (none :: rest) videos = videos) := by
  refine ⟨?_, ?_, ?_, ?_, ?_, ?_, ?_⟩
  · intro key env
    exact fetchLoop_attempts_le key env 5 1 (by omega) (by omega)
  · intro key env env' henv
    exact fetchLoop_congr key env env' henv 5 1 (by omega)
  · intro key env h
    exact fetchLoop_all_retry key env h 5 1 (by omega) (by omega)
  · intro count rest st hcf
    exact userLoop_four_failures count rest st hcf
  · intro count rest sp
    rw [show get_user_videos count (none :: none :: none :: none :: rest) sp
      = userLoop count (none :: none :: none :: none :: rest)
        { videos := [], cursor := 0, cf := 0, sess := sp } from rfl,
      userLoop_four_failures count rest _ rfl]
    simp
  · intro count fb rest st hbr hc
    exact hashtagLoop_four_failures count fb rest st hbr hc
  · intro count rest videos
    rfl

/-- Concrete instance of C4: five consecutive empty bodies exhaust the
`fetch_api` cap and return `None` after exactly 5 attempts; four consecutive
listing failures return the (empty) partial accumulator; the hashtag loop
gives up into its fallback after its cap. -/
theorem claim_C4_attempt_caps_witness :
    fetch_api_attempts "user_videos" (fun _ => AttemptOutcome.emptyBody)
      = (none, 5)
    ∧ get_user_videos 3 [none, none, none, none] none = []
    ∧ hashtagLoop 3 [⟨CellVal.int 7, "fb"⟩] [none, none, none, none]
        { videos := [], cursor := 0, br := 0, sess := none }
      = ([⟨CellVal.int 7, "fb"⟩], 1) :=
  ⟨claim_C4_attempt_caps.2.2.1 "user_videos" (fun _ => .emptyBody)
      (fun _ _ _ => rfl),
    claim_C4_attempt_caps.2.2.2.2.1 3 [] none,
    claim_C4_attempt_caps.2.2.2.2.2.1 3 [⟨CellVal.int 7, "fb"⟩] []
      { videos := [], cursor := 0, br := 0, sess := none } rfl (by decide)⟩

/-- Claim C5: a `statusCode = 100002` response on the `hashtag_videos`
endpoint hard-fails the signed call on attempt 1 — no further attempts are
made — and the hashtag listing's caller-level search fallback is invoked
exactly once (after the listing's blocked-retry budget is exhausted by such
immediately hard-failing calls). -/
theorem claim_C5_permanent_block :
    (∀ env : Nat → AttemptOutcome,
      env 1 = .parsed { statusCode := some 100002, keys := [], body := "blocked" } →
      fetch_api_attempts "hashtag_videos" env = (none, 1))
    ∧ (∀ (count : Nat) (fb : List Item) (rest : List (Option Page))
          (sp : Option SessParams), 0 < count →
        get_hashtag_videos count fb (none :: none :: none :: none :: rest) sp
          = (fb.take count, 1)) := by
  constructor
  · intro env h
    have hcl : classifyAttempt "hashtag_videos" (env 1) = .hardfail := by
      rw [h]; rfl
    show fetchLoop "hashtag_videos" env 1 5 = (none, 1)
    simp [fetchLoop, hcl]
  · intro count fb rest sp hc
    show hashtagLoop count fb (none :: none :: none :: none :: rest)
      { videos := [], cursor := 0, br := 0, sess := sp } = (fb.take count, 1)
    rw [hashtagLoop_four_failures count fb rest _ rfl (by simpa using hc)]
    simp

/-- Concrete instance of C5: an environment answering the permanent-block
code, and a hashtag run whose four page fetches all failed. -/
theorem claim_C5_permanent_block_witness :
    fetch_api_attempts "hashtag_videos"
        (fun _ => .parsed { statusCode := some 100002, keys := [], body := "blocked" })
      = (none, 1)
    ∧ get_hashtag_videos 2 [⟨CellVal.int 7, "fb"⟩] [none, none, none, none] none
      = ([⟨CellVal.int 7, "fb"⟩], 1) :=
  ⟨claim_C5_permanent_block.1 _ rfl,
    claim_C5_permanent_block.2 2 [⟨CellVal.int 7, "fb"⟩] [] none (by decide)⟩

/-- Claim C6 counterexample: after a single (first) transient failure of the
user-videos pagination loop, the memoized session parameters are *not* left
intact — the very first failing iteration already resets
`drv._hidden_api_session_params` to `None` (API.py:790). -/
theorem claim_C6_counterexample :
    userStep 30 { videos := [], cursor := 0, cf := 0, sess := some exampleSess }
        none
      = .inl { videos := [], cursor := 0, cf := 1, sess := none }
    ∧ (none : Option SessParams) ≠ some exampleSess := by
  constructor
  · rfl
  · intro h
    cases h

/-- Claim C6 (amended): during a paginated listing call the memoized session
parameters are invalidated on *every* transient failure that leads to a
retry — including the first failure — both in the user-videos loop and in
the hashtag loop; a successful page leaves them intact; and after an
invalidation the next `_ensure_hidden_api_session_params` call re-derives
and re-memoizes them. -/
theorem claim_C6_amended :
    (∀ (count : Nat) (st : UserSt), st.cf + 1 < 4 →
      userStep count st none = .inl { st with cf := st.cf + 1, sess := none })
    ∧ (∀ (count : Nat) (fb : List Item) (st : HashSt), st.br + 1 ≤ 3 →
        hashtagStep count fb st none
          = .inl { st with br := st.br + 1, sess := none })
    ∧ (∀ (count : Nat) (st : UserSt) (p : Page), p.hasMore = true →
        userStep count st (some p)
          = .inl { videos := appendUpTo count st.videos p.itemList,
                   cursor := p.cursor, cf := 0, sess := st.sess })
    ∧ (∀ fresh : SessParams,
        ensureSessionParams none fresh = (fresh, some fresh))
    ∧ (∀ cached fresh : SessParams,
        ensureSessionParams (some cached) fresh = (cached, some cached)) := by
  refine ⟨?_, ?_, ?_, fun _ => rfl, fun _ _ => rfl⟩
  · intro count st h
    simp only [userStep]
    rw [if_neg (by omega : ¬ 4 ≤ st.cf + 1)]
  · intro count fb st h
    simp only [hashtagStep]
    rw [if_neg (by omega : ¬ 3 < st.br + 1)]
  · intro count st p hp
    simp [userStep, hp]

/-- Concrete instance of the amended C6: the first failure invalidates the
memoized parameters, and the next `ensure` re-derives them. -/
theorem claim_C6_amended_witness :
    userStep 30 { videos := [], cursor := 0, cf := 0, sess := some exampleSess }
        none
      = .inl { videos := [], cursor := 0, cf := 1, sess := none }
    ∧ ensureSessionParams none exampleSess = (exampleSess, some exampleSess) :=
  ⟨claim_C6_amended.1 30
      { videos := [], cursor := 0, cf := 0, sess := some exampleSess }
      (by decide),
    claim_C6_amended.2.2.2.1 exampleSess⟩

/-- Claim C7: the result cache stores only non-empty values — `_cache_set`
with `None` or an empty list/dict leaves the cache unchanged, and non-empty
values overwrite prior entries — and consequently, when a listing call
previously cached `items ≠ []` and the immediately retried fetch returns zero
items, the empty retry result does not clobber the cache and
`save_user_videos_csv` still writes the previously cached items (truncated to
the requested count, merged against the file) instead of nothing. -/
theorem claim_C7_cache_fallback :
    (∀ (c : Cache) (k : String), cache_set c k .pnone = c)
    ∧ (∀ (c : Cache) (k : String), cache_set c k (.plist []) = c)
    ∧ (∀ (c : Cache) (k : String), cache_set c k (.pdict []) = c)
    ∧ (∀ (c : Cache) (k : String) (x : Item) (xs : List Item),
        List.lookup k (cache_set c k (.plist (x :: xs)))
          = some (.plist (x :: xs)))
    ∧ (∀ (c0 : Cache) (username : String) (items : List Item) (count : Nat)
          (fname : Option String) (existing : Option (List Row)),
        items ≠ [] → 0 < count →
        cache_set (cache_set c0 (user_videos_cache_key username) (.plist items))
            (user_videos_cache_key username) (.plist [])
          = cache_set c0 (user_videos_cache_key username) (.plist items)
        ∧ (save_user_videos_csv
              (cache_set c0 (user_videos_cache_key username) (.plist items))
              username [] count fname existing).2
            = deduplicate existing
                ((items.take count).map generate_video_data_row)
        ∧ (save_user_videos_csv
              (cache_set c0 (user_videos_cache_key username) (.plist items))
              username [] count fname existing).2 ≠ []) := by
  refine ⟨fun _ _ => rfl, fun _ _ => rfl, fun _ _ => rfl, ?_, ?_⟩
  · intro c k x xs
    simp [cache_set, List.lookup]
  · intro c0 username items count fname existing hne hc
    obtain ⟨x, xs, rfl⟩ : ∃ y ys, items = y :: ys := by
      cases items with
      | nil => exact absurd rfl hne
      | cons y ys => exact ⟨y, ys, rfl⟩
    have heq : save_user_videos_csv ((user_videos_cache_key username,
        PyVal.plist (x :: xs)) :: c0) username [] count fname existing
        = (fname.getD (default_csv_filename "user_videos" username),
          deduplicate existing
            (((x :: xs).take count).map generate_video_data_row)) := by
      simp only [save_user_videos_csv, cache_get, List.lookup, beq_self_eq_true,
        if_pos, List.isEmpty_nil, Option.getD_some, List.isEmpty_cons]
      rw [if_neg (by
        simp only [List.isEmpty_eq_true]
        exact take_ne_nil_of_pos (x :: xs) count (by simp) hc)]
      simp
    refine ⟨rfl, ?_, ?_⟩
    · show (save_user_videos_csv ((user_videos_cache_key username,
        PyVal.plist (x :: xs)) :: c0) username [] count fname existing).2 = _
      rw [heq]
    · show (save_user_videos_csv ((user_videos_cache_key username,
        PyVal.plist (x :: xs)) :: c0) username [] count fname existing).2 ≠ []
      rw [heq]
      exact deduplicate_ne_nil existing _ (existingPlusNew_ne_nil existing _ (by
        simp only [ne_eq, List.map_eq_nil_iff]
        exact take_ne_nil_of_pos (x :: xs) count (by simp) hc))

/-- Concrete instance of C7: an empty retry result leaves the cached entry in
place and the save helper writes the cached item. -/
theorem claim_C7_cache_fallback_witness :
    (save_user_videos_csv
        (cache_set [] (user_videos_cache_key "u")
          (.plist [⟨CellVal.int 3, "v"⟩]))
        "u" [] 5 (some "f.csv") none).2
      = deduplicate none
          (([⟨CellVal.int 3, "v"⟩] : List Item).take 5
            |>.map generate_video_data_row) :=
  ((claim_C7_cache_fallback.2.2.2.2 [] "u" [⟨CellVal.int 3, "v"⟩] 5
    (some "f.csv") none (by decide) (by decide)).2).1

/-- Claim C8 (evaluation at the failing input): with a *valid* endpoint key,
the signing capability never reporting ready, and the recovery navigation
raising, `fetch_api` propagates the `WebDriverException` of the unguarded
`self.go` at API.py:495 instead of returning `None`; by contrast a
non-raising navigation yields `.ok none`, and an unknown endpoint key raises
`KeyError` as the claim says. -/
theorem claim_C8_fetch_api_throws :
    fetch_api_total "trending" (fun _ => false) (fun _ => true)
        (fun _ => .emptyBody)
      = .error .webDriverError
    ∧ fetch_api_total "trending" (fun _ => false) (fun _ => false)
        (fun _ => .emptyBody)
      = .ok none
    ∧ fetch_api_total "nonexistent_endpoint" (fun _ => true) (fun _ => false)
        (fun _ => .emptyBody)
      = .error .keyError :=
  ⟨rfl, rfl, rfl⟩

/-- Claim C9: when the fetch returns no items and the in-memory cache holds
no entry for the key, `save_user_videos_csv` / `save_hashtag_videos_csv`
still return the target filename without raising, but write an empty CSV at
that path, fully replacing any prior contents — whatever `existing` held is
lost. -/
theorem claim_C9_empty_overwrite :
    (∀ (c : Cache) (username : String) (count : Nat) (fname : Option String)
        (existing : Option (List Row)),
      List.lookup (user_videos_cache_key username) c = none →
      save_user_videos_csv c username [] count fname existing
        = (fname.getD (default_csv_filename "user_videos" username), []))
    ∧ (∀ (c : Cache) (hashtag : String) (count : Nat) (fname : Option String)
        (existing : Option (List Row)),
      List.lookup (hashtag_videos_cache_key hashtag) c = none →
      save_hashtag_videos_csv c hashtag [] count fname existing
        = (fname.getD (default_csv_filename "hashtag_videos" hashtag), [])) := by
  constructor
  · intro c username count fname existing h
    simp [save_user_videos_csv, cache_get, h]
  · intro c hashtag count fname existing h
    simp [save_hashtag_videos_csv, cache_get, h]

/-- Concrete instance of C9: a cache miss plus an empty fetch wipes a
previously persisted row. -/
theorem claim_C9_empty_overwrite_witness :
    save_user_videos_csv [] "u" [] 5 (some "f.csv")
        (some [⟨CellVal.str "9", "old"⟩])
      = ("f.csv", []) :=
  claim_C9_empty_overwrite.1 [] "u" 5 (some "f.csv")
    (some [⟨CellVal.str "9", "old"⟩]) rfl

/-- Claim C10 counterexample: for the pattern-free input `"a b"`, the
`aweme_id` request parameter is the input itself, but the default filename is
*not* built from the input itself — `_default_csv_filename` sanitises it
(whitespace collapsed to underscores), yielding `comments_a_b.csv` rather
than `comments_a b.csv`. -/
theorem claim_C10_counterexample :
    (get_video_comments "a b" 1 []).2.1 = "a b"
    ∧ default_csv_filename "video_comments" "a b"
        ≠ "comments_" ++ "a b" ++ ".csv"
    ∧ default_csv_filename "video_comments" "a b" = "comments_a_b.csv" := by
  exact ⟨rfl, by decide, by decide⟩

/-- Claim C10 (amended): `get_video_comments` and `save_video_comments_csv`
normalise `video_id` identically for the request parameter and the cache key
— inputs containing `/video/<digits>` use exactly those digits, other inputs
are used verbatim — and an entry cached under the getter's key is found by
the saver; the default filename likewise uses the digits when the pattern is
present, but for pattern-free inputs it uses the *sanitised* input, which
coincides with the input itself for filename-safe inputs such as bare
numeric ids — so a full video URL and its bare numeric id are treated as the
same video. -/
theorem claim_C10_video_id_normalization :
    (∀ (s d : String) (count : Nat) (rs : List (Option Page)),
      extractVideoId s = some d →
        (get_video_comments s count rs).2.1 = d
        ∧ (get_video_comments s count rs).2.2 = "video_comments:" ++ d
        ∧ (pyStrip s = s →
            default_csv_filename "video_comments" s
              = "comments_" ++ d ++ ".csv"))
    ∧ (∀ (s : String) (count : Nat) (rs : List (Option Page)),
      extractVideoId s = none →
        (get_video_comments s count rs).2.1 = s
        ∧ (get_video_comments s count rs).2.2 = "video_comments:" ++ s
        ∧ (pyStrip s = s →
            default_csv_filename "video_comments" s
              = "comments_" ++ sanitize_filename_part s ++ ".csv"))
    ∧ (∀ (s : String) (c : Cache) (items : List Item) (count : Nat)
          (rs : List (Option Page)) (fname : Option String),
        items ≠ [] → 0 < count →
        (save_video_comments_csv
            (cache_set c ((get_video_comments s count rs).2.2) (.plist items))
            s [] count fname none).2
          = deduplicate none ((items.take count).map comment_export_row))
    ∧ normalizeVideoId "https://www.tiktok.com/@u/video/123?lang=en"
        = normalizeVideoId "123"
    ∧ default_csv_filename "video_comments"
          "https://www.tiktok.com/@u/video/123?lang=en"
        = default_csv_filename "video_comments" "123" := by
  refine ⟨?_, ?_, ?_, by decide, by decide⟩
  · intro s d count rs h
    refine ⟨?_, ?_, ?_⟩
    · show normalizeVideoId s = d
      rw [normalizeVideoId, h]
    · show "video_comments:" ++ normalizeVideoId s = _
      rw [normalizeVideoId, h]
    · intro hs
      rw [default_csv_filename_video_comments, hs, h]
  · intro s count rs h
    refine ⟨?_, ?_, ?_⟩
    · show normalizeVideoId s = s
      rw [normalizeVideoId, h]
    · show "video_comments:" ++ normalizeVideoId s = _
      rw [normalizeVideoId, h]
    · intro hs
      rw [default_csv_filename_video_comments, hs, h]
  · intro s c items count rs fname hne hc
    obtain ⟨x, xs, rfl⟩ : ∃ y ys, items = y :: ys := by
      cases items with
      | nil => exact absurd rfl hne
      | cons y ys => exact ⟨y, ys, rfl⟩
    show (save_video_comments_csv
      (("video_comments:" ++ normalizeVideoId s, PyVal.plist (x :: xs)) :: c)
      s [] count fname none).2 = _
    simp only [save_video_comments_csv, cache_get, List.lookup,
      beq_self_eq_true, if_pos, List.isEmpty_nil, Option.getD_some,
      List.isEmpty_cons]
    rw [if_neg (by
      simp only [List.isEmpty_eq_true]
      exact take_ne_nil_of_pos (x :: xs) count (by simp) hc)]
    simp

/-- Concrete instance of the amended C10: a full video URL and its bare
numeric id give the same request parameter, cache key and filename, and a
cache entry written under the getter's key is retrieved by the saver. -/
theorem claim_C10_video_id_normalization_witness :
    (get_video_comments "https://www.tiktok.com/@u/video/123?lang=en" 1 []).2.1
      = "123"
    ∧ default_csv_filename "video_comments"
        "https://www.tiktok.com/@u/video/123?lang=en"
      = "comments_" ++ "123" ++ ".csv"
    ∧ (get_video_comments "123" 1 []).2.1 = "123"
    ∧ (save_video_comments_csv
        (cache_set []
          ((get_video_comments "https://www.tiktok.com/@u/video/123?lang=en"
            1 []).2.2)
          (.plist [⟨CellVal.int 5, "c"⟩]))
        "https://www.tiktok.com/@u/video/123?lang=en" [] 1 none none).2
      = deduplicate none
          (([⟨CellVal.int 5, "c"⟩] : List Item).take 1
            |>.map comment_export_row) :=
  ⟨(claim_C10_video_id_normalization.1
      "https://www.tiktok.com/@u/video/123?lang=en" "123" 1 [] (by decide)).1,
    (claim_C10_video_id_normalization.1
      "https://www.tiktok.com/@u/video/123?lang=en" "123" 1 [] (by decide)).2.2
      (by decide),
    (claim_C10_video_id_normalization.2.1 "123" 1 [] (by decide)).1,
    claim_C10_video_id_normalization.2.2.1
      "https://www.tiktok.com/@u/video/123?lang=en" [] [⟨CellVal.int 5, "c"⟩]
      1 [] none (by decide) (by decide)⟩

end Pyktok
